/-
Verification of the clara trading SDK core (pkg/stream, pkg/exchange,
pkg/market) against its natural-language specification.

The Go source is shallowly embedded: structs become Lean structures,
methods become pure functions threading the receiver state explicitly,
Go channels become a `Chan` record (bounded buffer + closed flag),
`time.Duration` values become `Int` nanoseconds, and Go panics become
explicit result constructors.  Strings handled by symbol normalization
are modelled as lists of code points (Go runes).
-/
import Mathlib

set_option linter.unusedVariables false

/-! ## Errors (pkg/errors/errors.go)

The sentinel errors declared in the errors package.  `ValidationError`
values are modelled separately by `ConfigError` below, tagged by the
failing field, mirroring `NewValidationError(field, msg)`. -/

inductive SdkError where
  | errNotFound
  | errUnauthorized
  | errRateLimited
  | errTimeout
  | errDisconnected
  | errCancelled
  | errInvalidSymbol
  | errInvalidOrder
  | errInsufficientBalance
  | errOrderNotFound
  | errOrderNotActive
  deriving DecidableEq, Repr

/-! ## Stream state (pkg/stream/stream.go, `State`) -/

inductive StState where
  | idle
  | connecting
  | active
  | reconnecting
  | closing
  | closed
  deriving DecidableEq, Repr

/-! ## Config (pkg/stream/stream.go)

Durations are Int nanoseconds (`time.Second = 1000000000`). -/

structure Config where
  bufferSize : Int
  reconnect : Bool
  maxReconnectAttempts : Int
  reconnectBaseDelay : Int
  reconnectMaxDelay : Int
  pingInterval : Int
  pongTimeout : Int
  deriving DecidableEq, Repr

/-- `DefaultConfig` from stream.go. -/
def defaultConfig : Config :=
  { bufferSize := 100
    reconnect := true
    maxReconnectAttempts := 10
    reconnectBaseDelay := 1000000000
    reconnectMaxDelay := 30000000000
    pingInterval := 30000000000
    pongTimeout := 10000000000 }

/-- The field tag of the `ValidationError` returned by `Config.Validate`. -/
inductive ConfigError where
  | bufferSize
  | maxReconnectAttempts
  | reconnectBaseDelay
  | reconnectMaxDelay
  deriving DecidableEq, Repr

/-- `Config.Validate` from stream.go: the four `if` checks in source order;
`none` models the `nil` return. -/
def Config.validate (c : Config) : Option ConfigError :=
  if c.bufferSize < 0 then some .bufferSize
  else if c.maxReconnectAttempts < 0 then some .maxReconnectAttempts
  else if c.reconnectBaseDelay < 0 then some .reconnectBaseDelay
  else if c.reconnectMaxDelay < c.reconnectBaseDelay then some .reconnectMaxDelay
  else none

/-! ## Channels

A Go channel as seen by this package: a bounded FIFO buffer plus a
closed flag.  A non-blocking send (`select` with a `default` branch)
succeeds when the buffer has room, falls through to `default` when it
is full, and panics when the channel is closed (a closed channel is
always ready to send, and the send panics). -/

structure Chan (α : Type) where
  buf : List α
  cap : Nat
  closed : Bool
  deriving DecidableEq, Repr

inductive SendRes where
  | sent
  | full
  | panicked
  deriving DecidableEq, Repr

/-- Non-blocking send on a Go channel (`select { case ch <- v: default: }`). -/
def Chan.trySend (c : Chan α) (a : α) : SendRes × Chan α :=
  if c.closed then (.panicked, c)
  else if c.buf.length < c.cap then (.sent, { c with buf := c.buf ++ [a] })
  else (.full, c)

/-! ## BaseStream (pkg/stream/stream.go)

The receiver state of `BaseStream[T]`.  `dataCh = none` models the nil
`dataCh` field; the done channel is tracked by its closed flag only
(nothing is ever sent on it); `cancelRequested` records that the
`context.CancelFunc` stored by `Start` was invoked. -/

structure BaseStream (T : Type) where
  state : StState
  config : Config
  dataCh : Option (Chan T)
  errorCh : Chan SdkError
  doneClosed : Bool
  cancelRequested : Bool
  deriving DecidableEq, Repr

/-- `NewBaseStream`: nil data channel, error channel of capacity 10,
open done channel, zero-valued (Idle) state. -/
def newBaseStream (T : Type) (cfg : Config) : BaseStream T :=
  { state := .idle
    config := cfg
    dataCh := none
    errorCh := { buf := [], cap := 10, closed := false }
    doneClosed := false
    cancelRequested := false }

/-- `BaseStream.DataChannel`: returns the data channel, creating it if nil;
a configured buffer size `<= 0` is replaced by 100. -/
def BaseStream.dataChannel (s : BaseStream T) : Chan T × BaseStream T :=
  match s.dataCh with
  | some c => (c, s)
  | none =>
    let bufSize : Int := if s.config.bufferSize ≤ 0 then 100 else s.config.bufferSize
    let c : Chan T := { buf := [], cap := bufSize.toNat, closed := false }
    (c, { s with dataCh := some c })

/-- The outcome of `Emit`: the Go `bool` result, or a runtime panic. -/
inductive EmitRes where
  | ok (sent : Bool)
  | panicked
  deriving DecidableEq, Repr

/-- `BaseStream.Emit`: non-blocking send of `d` on the channel returned by
`DataChannel`. -/
def BaseStream.emit (s : BaseStream T) (d : T) : EmitRes × BaseStream T :=
  let (c, s') := s.dataChannel
  match c.trySend d with
  | (.sent, c') => (.ok true, { s' with dataCh := some c' })
  | (.full, _) => (.ok false, s')
  | (.panicked, _) => (.panicked, s')

/-- The outcome of `EmitError` (which returns nothing in Go): the error was
buffered, silently dropped on overflow, or the send panicked. -/
inductive EmitErrRes where
  | delivered
  | droppedFull
  | panicked
  deriving DecidableEq, Repr

/-- `BaseStream.EmitError`: non-blocking send on the error channel, dropping
the error when the channel is full. -/
def BaseStream.emitError (s : BaseStream T) (e : SdkError) : EmitErrRes × BaseStream T :=
  match s.errorCh.trySend e with
  | (.sent, c') => (.delivered, { s with errorCh := c' })
  | (.full, _) => (.droppedFull, s)
  | (.panicked, _) => (.panicked, s)

/-- The body of the cleanup goroutine spawned by `Start`, run once the
context is cancelled: close and nil out the data channel (under the mutex),
close the error channel, close the done channel, set state `Closed`. -/
def BaseStream.onCtxDone (s : BaseStream T) : BaseStream T :=
  { s with
    dataCh := none
    errorCh := { s.errorCh with closed := true }
    doneClosed := true
    state := .closed }

/-- The synchronous part of `BaseStream.Start`: the compare-and-swap from
`StateIdle` to `StateConnecting`, returning `errors.ErrCancelled` when the
swap fails (the `// Already running` branch). -/
def BaseStream.start (s : BaseStream T) : Except SdkError (BaseStream T) :=
  if s.state = .idle then .ok { s with state := .connecting }
  else .error .errCancelled

/-- `BaseStream.Stop`: returns nil immediately when the state is `Closed` or
`Idle`; otherwise sets `Closing` and invokes the stored cancel function. -/
def BaseStream.stop (s : BaseStream T) : Option SdkError × BaseStream T :=
  if s.state = .closed ∨ s.state = .idle then (none, s)
  else (none, { s with state := .closing, cancelRequested := true })

/-! ## Provider registry (pkg/exchange/client.go)

`Register` / `RegisterProvider` guard a package-level map of provider
factories.  The map is modelled as an association list keyed by the
provider name; factories are opaque tokens.  `register r p f = none`
models the `panic` on duplicate registration. -/

abbrev Registry := List (String × Nat)

/-- `IsRegistered` / `IsProviderRegistered`: map-membership test. -/
def isRegistered (r : Registry) (p : String) : Bool :=
  r.any (fun e => e.fst = p)

/-- `Register` / `RegisterProvider`: panic (`none`) when the provider is
already in the map, otherwise add the factory. -/
def register (r : Registry) (p : String) (f : Nat) : Option Registry :=
  if isRegistered r p then none else some ((p, f) :: r)

/-! ## Symbol normalization (pkg/market, `NewSymbol`)

Go strings are sequences of runes; a rune is a code point, modelled as
`Nat`.  `strings.ToUpper` maps each rune through its uppercase mapping
(embedded here on the ASCII letters, the fragment exercised by trading
symbols; uppercasing never turns a space rune into a non-space rune or
vice versa); `strings.TrimSpace` drops white-space runes from both
ends. -/

abbrev GoStr := List Nat

/-- The uppercase mapping of `unicode.ToUpper` on one rune (ASCII fragment:
97..122 map down by 32, everything else is unchanged). -/
def goToUpperRune (c : Nat) : Nat :=
  if 97 ≤ c ∧ c ≤ 122 then c - 32 else c

/-- `unicode.IsSpace` on the ASCII white-space runes
(space, tab, newline, vertical tab, form feed, carriage return). -/
def goIsSpace (c : Nat) : Bool :=
  decide (c = 32 ∨ c = 9 ∨ c = 10 ∨ c = 11 ∨ c = 12 ∨ c = 13)

/-- `strings.TrimSpace`: drop white space from the front, then from the
back (via reverse). -/
def goTrimSpace (l : GoStr) : GoStr :=
  ((l.dropWhile goIsSpace).reverse.dropWhile goIsSpace).reverse

/-- `strings.ToUpper`. -/
def goToUpper (l : GoStr) : GoStr :=
  l.map goToUpperRune

/-- `NewSymbol` from pkg/market: `Symbol(strings.ToUpper(strings.TrimSpace(s)))`. -/
def newSymbol (s : GoStr) : GoStr :=
  goToUpper (goTrimSpace s)

/-- `Symbol.String`: the identity on the underlying string. -/
def symbolString (s : GoStr) : GoStr := s

/-- The assignment performed by `Symbol.UnmarshalJSON` once the JSON string
payload `str` has been decoded: `*s = NewSymbol(str)`. -/
def symbolOfUnmarshalledJSON (str : GoStr) : GoStr :=
  newSymbol str

/-! ## Order book replica (pkg/market `OrderBook` + spec section 4.6)

`OrderBookEntry`/`OrderBook` come from pkg/market/types.go: bids sorted
by price descending, asks ascending, with a `lastUpdateID` watermark
(the `Sequence` field).  Prices and quantities are `udecimal.Decimal`
values, embedded as integers scaled by a fixed power of ten (the claims
are purely order-theoretic, so the scaling is immaterial). -/

structure OrderBookEntry where
  price : Int
  qty : Int
  deriving DecidableEq, Repr

/-- A replica of an order book kept in sync by snapshot plus diffs. -/
structure OrderBookReplica where
  bids : List OrderBookEntry
  asks : List OrderBookEntry
  lastUpdateID : Nat
  deriving DecidableEq, Repr

/-- An incremental depth diff carrying the update-ID range
`[firstUpdateID, finalUpdateID]` and the changed levels of each side. -/
structure BookDiff where
  firstUpdateID : Nat
  finalUpdateID : Nat
  bids : List OrderBookEntry
  asks : List OrderBookEntry
  deriving DecidableEq, Repr

/-- Modelled from the spec: the repository's Order-Book Consistency Engine
(the planned `internal/state` package) is not among the source files; spec
section 4.6 defines applying one `(price, quantity)` entry to one sorted
side: "quantity 0 removes the price level, otherwise the level is
inserted/replaced, preserving the sort invariant".  `bf a b` reads "price
`a` is sorted before price `b`" (`>` for bids, `<` for asks). -/
def setLevel (bf : Int → Int → Bool) (p q : Int) : List OrderBookEntry → List OrderBookEntry
  | [] => if q = 0 then [] else [{ price := p, qty := q }]
  | l :: ls =>
    if bf p l.price then
      if q = 0 then l :: ls else { price := p, qty := q } :: l :: ls
    else if p = l.price then
      if q = 0 then ls else { price := p, qty := q } :: ls
    else
      l :: setLevel bf p q ls

/-- Modelled from the spec (section 4.6): apply every entry of a diff side
in order. -/
def applySide (bf : Int → Int → Bool) (side : List OrderBookEntry)
    (entries : List OrderBookEntry) : List OrderBookEntry :=
  entries.foldl (fun acc e => setLevel bf e.price e.qty acc) side

/-- Bids sort higher prices first. -/
def bidBefore (a b : Int) : Bool := decide (b < a)

/-- Asks sort lower prices first. -/
def askBefore (a b : Int) : Bool := decide (a < b)

/-- Modelled from the spec (section 4.6, no engine source under src/):
a diff with `finalUpdateID <= lastUpdateID` is a stale duplicate and is
discarded (no-op); a diff with `firstUpdateID > lastUpdateID + 1` is a gap
and invalidates the replica (`none`); otherwise the diff is applicable and
both sides are updated, the watermark advancing to `finalUpdateID`. -/
def applyDiff (r : OrderBookReplica) (d : BookDiff) : Option OrderBookReplica :=
  if d.finalUpdateID ≤ r.lastUpdateID then some r
  else if r.lastUpdateID + 1 < d.firstUpdateID then none
  else some
    { bids := applySide bidBefore r.bids d.bids
      asks := applySide askBefore r.asks d.asks
      lastUpdateID := d.finalUpdateID }

/-- Modelled from the spec: apply a sequence of diffs, stopping invalidated
as soon as a gap is detected. -/
def applyDiffs (r : OrderBookReplica) : List BookDiff → Option OrderBookReplica
  | [] => some r
  | d :: ds =>
    match applyDiff r d with
    | none => none
    | some r' => applyDiffs r' ds

/-- The order-book invariant of spec section 3: bids strictly descending by
price, asks strictly ascending, no duplicate price level on a side, and no
stored level with quantity zero. -/
def ReplicaInv (r : OrderBookReplica) : Prop :=
  r.bids.Pairwise (fun a b => b.price < a.price) ∧
  r.asks.Pairwise (fun a b => a.price < b.price) ∧
  r.bids.Pairwise (fun a b => a.price ≠ b.price) ∧
  r.asks.Pairwise (fun a b => a.price ≠ b.price) ∧
  (∀ e ∈ r.bids, e.qty ≠ 0) ∧ (∀ e ∈ r.asks, e.qty ≠ 0)

instance (r : OrderBookReplica) : Decidable (ReplicaInv r) := by
  unfold ReplicaInv; infer_instance

/-! ## Lemmas about `setLevel` -/

theorem setLevel_mem (bf : Int → Int → Bool) (p q : Int) :
    ∀ (ls : List OrderBookEntry), ∀ e ∈ setLevel bf p q ls, e.price = p ∨ e ∈ ls := by
  intro ls
  induction ls with
  | nil =>
    intro e he
    simp only [setLevel] at he
    split at he
    · simp at he
    · simp at he
      left; rw [he]
  | cons l ls ih =>
    intro e he
    simp only [setLevel] at he
    split at he
    · split at he
      · right; exact he
      · rcases List.mem_cons.mp he with h1 | h2
        · left; rw [h1]
        · right; exact h2
    · split at he
      · split at he
        · right; exact List.mem_cons_of_mem _ he
        · rcases List.mem_cons.mp he with h1 | h2
          · left; rw [h1]
          · right; exact List.mem_cons_of_mem _ h2
      · rcases List.mem_cons.mp he with h1 | h2
        · right; rw [h1]; exact List.mem_cons_self _ _
        · rcases ih e h2 with h3 | h4
          · left; exact h3
          · right; exact List.mem_cons_of_mem _ h4

theorem setLevel_qty (bf : Int → Int → Bool) (p q : Int) :
    ∀ (ls : List OrderBookEntry), (∀ e ∈ ls, e.qty ≠ 0) →
      ∀ e ∈ setLevel bf p q ls, e.qty ≠ 0 := by
  intro ls
  induction ls with
  | nil =>
    intro _ e he
    simp only [setLevel] at he
    split at he
    · simp at he
    · simp at he
      rw [he]
      assumption
  | cons l ls ih =>
    intro hq e he
    have hql : l.qty ≠ 0 := hq l (List.mem_cons_self _ _)
    have hqls : ∀ e ∈ ls, e.qty ≠ 0 := fun e hm => hq e (List.mem_cons_of_mem _ hm)
    simp only [setLevel] at he
    split at he
    · split at he
      · exact hq e he
      · rcases List.mem_cons.mp he with h1 | h2
        · rw [h1]; assumption
        · exact hq e h2
    · split at he
      · split at he
        · exact hqls e he
        · rcases List.mem_cons.mp he with h1 | h2
          · rw [h1]; assumption
          · exact hqls e h2
      · rcases List.mem_cons.mp he with h1 | h2
        · rw [h1]; exact hql
        · exact ih hqls e h2

theorem setLevel_pairwise (bf : Int → Int → Bool)
    (htrans : ∀ a b c, bf a b = true → bf b c = true → bf a c = true)
    (htot : ∀ a b, a ≠ b → bf a b = true ∨ bf b a = true)
    (p q : Int) :
    ∀ (ls : List OrderBookEntry),
      ls.Pairwise (fun a b => bf a.price b.price = true) →
      (setLevel bf p q ls).Pairwise (fun a b => bf a.price b.price = true) := by
  intro ls
  induction ls with
  | nil =>
    intro _
    simp only [setLevel]
    split
    · exact List.Pairwise.nil
    · exact List.pairwise_singleton _ _
  | cons l ls ih =>
    intro hs
    rcases List.pairwise_cons.mp hs with ⟨hl, hls⟩
    simp only [setLevel]
    split
    · rename_i hbf
      split
      · exact hs
      · refine List.pairwise_cons.mpr ⟨?_, hs⟩
        intro e he
        rcases List.mem_cons.mp he with h1 | h2
        · rw [h1]; exact hbf
        · exact htrans _ _ _ hbf (hl e h2)
    · rename_i hnbf
      split
      · rename_i heq
        split
        · exact hls
        · refine List.pairwise_cons.mpr ⟨?_, hls⟩
          intro e he
          rw [show (OrderBookEntry.mk p q).price = p from rfl, heq]
          exact hl e he
      · rename_i heq
        have hlp : bf l.price p = true := by
          rcases htot p l.price heq with h1 | h2
          · exact absurd h1 hnbf
          · exact h2
        refine List.pairwise_cons.mpr ⟨?_, ih hls⟩
        intro e he
        rcases setLevel_mem bf p q ls e he with h1 | h2
        · rw [h1]; exact hlp
        · exact hl e h2

theorem applySide_pairwise (bf : Int → Int → Bool)
    (htrans : ∀ a b c, bf a b = true → bf b c = true → bf a c = true)
    (htot : ∀ a b, a ≠ b → bf a b = true ∨ bf b a = true)
    (entries : List OrderBookEntry) :
    ∀ (side : List OrderBookEntry),
      side.Pairwise (fun a b => bf a.price b.price = true) →
      (applySide bf side entries).Pairwise (fun a b => bf a.price b.price = true) := by
  induction entries with
  | nil => intro side hs; exact hs
  | cons d ds ih =>
    intro side hs
    exact ih _ (setLevel_pairwise bf htrans htot d.price d.qty side hs)

theorem applySide_qty (bf : Int → Int → Bool) (entries : List OrderBookEntry) :
    ∀ (side : List OrderBookEntry), (∀ e ∈ side, e.qty ≠ 0) →
      ∀ e ∈ applySide bf side entries, e.qty ≠ 0 := by
  induction entries with
  | nil => intro side hq; exact hq
  | cons d ds ih =>
    intro side hq
    exact ih _ (setLevel_qty bf d.price d.qty side hq)

theorem bidBefore_trans :
    ∀ a b c, bidBefore a b = true → bidBefore b c = true → bidBefore a c = true := by
  intro a b c
  simp only [bidBefore, decide_eq_true_eq]
  omega

theorem bidBefore_tot : ∀ a b, a ≠ b → bidBefore a b = true ∨ bidBefore b a = true := by
  intro a b h
  simp only [bidBefore, decide_eq_true_eq]
  omega

theorem askBefore_trans :
    ∀ a b c, askBefore a b = true → askBefore b c = true → askBefore a c = true := by
  intro a b c
  simp only [askBefore, decide_eq_true_eq]
  omega

theorem askBefore_tot : ∀ a b, a ≠ b → askBefore a b = true ∨ askBefore b a = true := by
  intro a b h
  simp only [askBefore, decide_eq_true_eq]
  omega

theorem pairwise_bid_iff (ls : List OrderBookEntry) :
    ls.Pairwise (fun a b => bidBefore a.price b.price = true) ↔
      ls.Pairwise (fun a b => b.price < a.price) := by
  constructor <;> intro h
  · exact h.imp (by intro a b hh; simpa [bidBefore] using hh)
  · exact h.imp (by intro a b hh; simpa [bidBefore] using hh)

theorem pairwise_ask_iff (ls : List OrderBookEntry) :
    ls.Pairwise (fun a b => askBefore a.price b.price = true) ↔
      ls.Pairwise (fun a b => a.price < b.price) := by
  constructor <;> intro h
  · exact h.imp (by intro a b hh; simpa [askBefore] using hh)
  · exact h.imp (by intro a b hh; simpa [askBefore] using hh)

/-! ## Lemmas about symbol normalization -/

theorem goIsSpace_goToUpperRune (c : Nat) : goIsSpace (goToUpperRune c) = goIsSpace c := by
  unfold goToUpperRune
  split
  · rename_i h
    unfold goIsSpace
    rw [decide_eq_decide]
    omega
  · rfl

theorem goToUpperRune_idem (c : Nat) : goToUpperRune (goToUpperRune c) = goToUpperRune c := by
  by_cases h : 97 ≤ c ∧ c ≤ 122
  · simp only [goToUpperRune, if_pos h]
    rw [if_neg (by omega)]
  · simp only [goToUpperRune, if_neg h]

theorem dropWhile_dropWhile (p : α → Bool) (l : List α) :
    (l.dropWhile p).dropWhile p = l.dropWhile p := by
  induction l with
  | nil => rfl
  | cons a l ih =>
    by_cases h : p a
    · simp [List.dropWhile_cons, h, ih]
    · simp [List.dropWhile_cons, h]

theorem head?_dropWhile (p : α → Bool) (l : List α) (a : α)
    (h : (l.dropWhile p).head? = some a) : p a = false := by
  have hm := List.head?_dropWhile_not p l
  rw [h] at hm
  exact hm

theorem dropWhile_eq_self_of_head (p : α → Bool) (l : List α)
    (h : ∀ a, l.head? = some a → p a = false) : l.dropWhile p = l := by
  cases l with
  | nil => rfl
  | cons a l =>
    have := h a rfl
    simp [List.dropWhile_cons, this]

theorem goTrimSpace_no_leading (l : GoStr) :
    (goTrimSpace l).dropWhile goIsSpace = goTrimSpace l := by
  unfold goTrimSpace
  apply dropWhile_eq_self_of_head
  intro x hx
  rw [List.head?_reverse] at hx
  have hbne : (l.dropWhile goIsSpace).reverse.dropWhile goIsSpace ≠ [] := by
    intro h0
    rw [h0] at hx
    simp at hx
  obtain ⟨t, ht⟩ := List.dropWhile_suffix (l := (l.dropWhile goIsSpace).reverse) goIsSpace
  have h1 := List.getLast?_append_of_ne_nil t hbne
  rw [ht, List.getLast?_reverse] at h1
  exact head?_dropWhile goIsSpace l x (h1.trans hx)

theorem goTrimSpace_idem (l : GoStr) : goTrimSpace (goTrimSpace l) = goTrimSpace l := by
  conv_lhs => rw [goTrimSpace, goTrimSpace_no_leading l]
  rw [goTrimSpace, List.reverse_reverse, dropWhile_dropWhile, ← goTrimSpace]

theorem dropWhile_goToUpper (l : GoStr) :
    (goToUpper l).dropWhile goIsSpace = goToUpper (l.dropWhile goIsSpace) := by
  unfold goToUpper
  rw [List.dropWhile_map]
  rw [show goIsSpace ∘ goToUpperRune = goIsSpace from funext goIsSpace_goToUpperRune]

theorem goTrimSpace_goToUpper (l : GoStr) :
    goTrimSpace (goToUpper l) = goToUpper (goTrimSpace l) := by
  unfold goTrimSpace
  rw [dropWhile_goToUpper]
  rw [show (goToUpper (l.dropWhile goIsSpace)).reverse
      = goToUpper ((l.dropWhile goIsSpace).reverse) from (List.map_reverse _ _).symm]
  rw [dropWhile_goToUpper]
  exact (List.map_reverse _ _).symm

theorem goToUpper_idem (l : GoStr) : goToUpper (goToUpper l) = goToUpper l := by
  unfold goToUpper
  rw [List.map_map]
  apply List.map_congr_left
  intro x _
  exact goToUpperRune_idem x

/-- Applying one applicable diff preserves the order-book invariant. -/
theorem applyDiff_inv (r : OrderBookReplica) (d : BookDiff) (hr : ReplicaInv r)
    (r' : OrderBookReplica) (h : applyDiff r d = some r') : ReplicaInv r' := by
  obtain ⟨hb, ha, _, _, hbq, haq⟩ := hr
  unfold applyDiff at h
  split at h
  · cases h; exact ⟨hb, ha, ‹_›, ‹_›, hbq, haq⟩
  · split at h
    · exact absurd h (by simp)
    · cases h
      have hb' :
          (applySide bidBefore r.bids d.bids).Pairwise
            (fun a b => bidBefore a.price b.price = true) :=
        applySide_pairwise bidBefore bidBefore_trans bidBefore_tot d.bids r.bids
          ((pairwise_bid_iff r.bids).mpr hb)
      have ha' :
          (applySide askBefore r.asks d.asks).Pairwise
            (fun a b => askBefore a.price b.price = true) :=
        applySide_pairwise askBefore askBefore_trans askBefore_tot d.asks r.asks
          ((pairwise_ask_iff r.asks).mpr ha)
      refine ⟨(pairwise_bid_iff _).mp hb', (pairwise_ask_iff _).mp ha', ?_, ?_, ?_, ?_⟩
      · exact ((pairwise_bid_iff _).mp hb').imp (fun hh => ne_of_gt hh)
      · exact ((pairwise_ask_iff _).mp ha').imp (fun hh => ne_of_lt hh)
      · exact applySide_qty bidBefore d.bids r.bids hbq
      · exact applySide_qty askBefore d.asks r.asks haq

/-! ## Concrete states used by the claim theorems -/

/-- A stream whose data channel (capacity 1) already holds one item: the
"full channel, slow consumer" configuration. -/
def fullStream : BaseStream Nat :=
  { state := .active
    config := { defaultConfig with bufferSize := 1 }
    dataCh := some { buf := [5], cap := 1, closed := false }
    errorCh := { buf := [], cap := 10, closed := false }
    doneClosed := false
    cancelRequested := false }

/-- The constraints claim C3 says `Config.Validate` enforces. -/
def c3ClaimConstraints (c : Config) : Prop :=
  0 ≤ c.bufferSize ∧ 0 ≤ c.maxReconnectAttempts ∧
  c.reconnectBaseDelay ≤ c.reconnectMaxDelay ∧
  (c.reconnect = true → 0 < c.pingInterval ∧ 0 < c.pongTimeout)

instance (c : Config) : Decidable (c3ClaimConstraints c) := by
  unfold c3ClaimConstraints; infer_instance

/-! ## Claim theorems -/

/-- C1: refuted as stated — on a stream that has reached closure (the
cleanup goroutine of `Start` has run, so `Done()` is closed), `EmitError`
still attempts a send on the already-closed error channel, which panics,
and `Emit` recreates a fresh data channel and successfully sends into it.
This evaluates the embedded code on the failing interleaving. -/
theorem c1_post_close_send_bug :
    ((newBaseStream Nat defaultConfig).start
        = .ok { newBaseStream Nat defaultConfig with state := .connecting }) ∧
    (({ newBaseStream Nat defaultConfig with state := .connecting
        }.onCtxDone).doneClosed = true) ∧
    (({ newBaseStream Nat defaultConfig with state := .connecting
        }.onCtxDone).emitError .errDisconnected).fst = .panicked ∧
    (({ newBaseStream Nat defaultConfig with state := .connecting
        }.onCtxDone).emit 7).fst = .ok true := by
  exact ⟨rfl, rfl, rfl, rfl⟩

/-- C2: for every sequence of diffs applied to an order-book replica
satisfying the invariant, any replica reached by `applyDiffs` (hence the
state after each single application, since the diff list is universally
quantified) still has bids strictly descending by price, asks strictly
ascending, no duplicate price level, and no level with quantity zero. -/
theorem c2_applyDiffs_preserves_invariant (r : OrderBookReplica) (ds : List BookDiff)
    (hr : ReplicaInv r) (r' : OrderBookReplica) (h : applyDiffs r ds = some r') :
    ReplicaInv r' := by
  induction ds generalizing r with
  | nil =>
    simp only [applyDiffs, Option.some.injEq] at h
    rwa [← h]
  | cons d ds ih =>
    simp only [applyDiffs] at h
    cases hd : applyDiff r d with
    | none => rw [hd] at h; exact absurd h (by simp)
    | some r1 =>
      rw [hd] at h
      exact ih r1 (applyDiff_inv r d hr r1 hd) h

/-- Witness for C2, on the spec's own scenario: snapshot at watermark 100
with bids `[(100,1)]`, asks `[(101,1)]`; the diff `{first 101, final 102,
bids [(100,0)], asks [(101,2)]}` yields bids `[]`, asks `[(101,2)]`,
watermark 102, and the invariant holds before and after. -/
theorem c2_applyDiffs_preserves_invariant_witness :
    ReplicaInv { bids := [{ price := 100, qty := 1 }],
                 asks := [{ price := 101, qty := 1 }], lastUpdateID := 100 } ∧
    applyDiffs
        { bids := [{ price := 100, qty := 1 }],
          asks := [{ price := 101, qty := 1 }], lastUpdateID := 100 }
        [{ firstUpdateID := 101, finalUpdateID := 102,
           bids := [{ price := 100, qty := 0 }],
           asks := [{ price := 101, qty := 2 }] }]
      = some { bids := [], asks := [{ price := 101, qty := 2 }], lastUpdateID := 102 } ∧
    ReplicaInv { bids := [], asks := [{ price := 101, qty := 2 }], lastUpdateID := 102 } := by
  refine ⟨by decide, by decide, ?_⟩
  exact c2_applyDiffs_preserves_invariant
    { bids := [{ price := 100, qty := 1 }],
      asks := [{ price := 101, qty := 1 }], lastUpdateID := 100 }
    [{ firstUpdateID := 101, finalUpdateID := 102,
       bids := [{ price := 100, qty := 0 }],
       asks := [{ price := 101, qty := 2 }] }]
    (by decide)
    { bids := [], asks := [{ price := 101, qty := 2 }], lastUpdateID := 102 }
    (by decide)

/-- C3 counterexample: a configuration with reconnect enabled and a zero
ping interval violates the claim's recognized-option constraints, yet
`Config.Validate` accepts it — so "error iff the constraints are violated"
is false at this input. -/
theorem c3_validate_counterexample :
    ¬((Config.validate { defaultConfig with pingInterval := 0 }).isSome ↔
      ¬ c3ClaimConstraints { defaultConfig with pingInterval := 0 }) := by
  decide

/-- C3 amended: `Config.Validate` returns an error iff the buffer size is
negative, the max reconnect attempts are negative, the base backoff delay
is negative, or the max backoff delay is below the base delay; ping
interval, pong timeout and the reconnect flag are never examined. -/
theorem c3_validate_amended (c : Config) :
    (Config.validate c).isSome ↔
      ¬(0 ≤ c.bufferSize ∧ 0 ≤ c.maxReconnectAttempts ∧
        0 ≤ c.reconnectBaseDelay ∧ c.reconnectBaseDelay ≤ c.reconnectMaxDelay) := by
  unfold Config.validate
  split_ifs <;> simp <;> omega

/-- C4 counterexample: with a configured buffer size of 0, the data channel
created by `DataChannel` has capacity 100, not 0 — buffer size 0 does not
yield an unbuffered channel. -/
theorem c4_buffer_zero_counterexample :
    ((newBaseStream Nat { defaultConfig with bufferSize := 0 }).dataChannel.fst.cap = 100) ∧
    ((newBaseStream Nat { defaultConfig with bufferSize := 0 }).dataChannel.fst.cap ≠ 0) := by
  decide

/-- C4 amended: the data channel's capacity equals the configured buffer
size when that size is positive, and 100 (the default) whenever the
configured size is zero or negative; the default configuration yields
capacity 100. -/
theorem c4_capacity_amended (cfg : Config) :
    (0 < cfg.bufferSize →
      (newBaseStream Nat cfg).dataChannel.fst.cap = cfg.bufferSize.toNat) ∧
    (cfg.bufferSize ≤ 0 → (newBaseStream Nat cfg).dataChannel.fst.cap = 100) ∧
    (newBaseStream Nat defaultConfig).dataChannel.fst.cap = 100 := by
  refine ⟨?_, ?_, by decide⟩ <;> intro h <;>
    simp only [newBaseStream, BaseStream.dataChannel]
  · rw [if_neg (by omega)]
  · rw [if_pos h]
    rfl

/-- Witness for C4 (amended) at buffer size 7: the created channel has
capacity 7. -/
theorem c4_capacity_amended_witness :
    (newBaseStream Nat { defaultConfig with bufferSize := 7 }).dataChannel.fst.cap = 7 :=
  (c4_capacity_amended { defaultConfig with bufferSize := 7 }).1 (by decide)

/-- C5 counterexample: on a full channel, `Emit` returns false and leaves
the entire stream state — channel contents included — unchanged; in
particular no component of the state records the drop, refuting "the drop
is counted". -/
theorem c5_drop_not_counted_counterexample :
    (fullStream.emit 9).snd = fullStream ∧ (fullStream.emit 9).fst = .ok false := by
  decide

/-- C5 amended: when the (open) data channel is full, `Emit` drops the
newest item — the argument being emitted — returns false, and leaves the
stream state unchanged (nothing counts the drop); when the channel has
room, `Emit` appends the item and returns true. -/
theorem c5_emit_amended {T : Type} (s : BaseStream T) (c : Chan T) (d : T)
    (hc : s.dataCh = some c) (hcl : c.closed = false) :
    (c.cap ≤ c.buf.length → s.emit d = (.ok false, s)) ∧
    (c.buf.length < c.cap →
      s.emit d = (.ok true, { s with dataCh := some { c with buf := c.buf ++ [d] } })) := by
  constructor <;> intro h <;>
    simp only [BaseStream.emit, BaseStream.dataChannel, hc, Chan.trySend, hcl,
      Bool.false_eq_true, if_false]
  · rw [if_neg (by omega)]
  · rw [if_pos h]

/-- Witness for C5 (amended): on the concrete full stream, `Emit 9` returns
false and changes nothing, and on the same stream with an empty channel it
enqueues the item and returns true. -/
theorem c5_emit_amended_witness :
    fullStream.emit 9 = (.ok false, fullStream) := by
  have h := (c5_emit_amended fullStream
    { buf := [5], cap := 1, closed := false } 9 rfl rfl).1 (by decide)
  exact h

/-- C6 counterexample: buffer size 1, two ticks emitted with no consumer —
the channel holds only the FIRST tick, not the second. -/
theorem c6_second_tick_counterexample :
    ((((newBaseStream Nat { defaultConfig with bufferSize := 1 }).emit 1).snd.emit 2).snd.dataCh
        = some { buf := [1], cap := 1, closed := false }) ∧
    ((((newBaseStream Nat { defaultConfig with bufferSize := 1 }).emit 1).snd.emit 2).snd.dataCh
        ≠ some { buf := [2], cap := 1, closed := false }) := by
  decide

/-- C6 amended: with buffer size 1 and no consumer, the first `Emit`
succeeds, the second returns false and leaves the stream unchanged, so the
channel holds only the first tick; nothing records the drop. -/
theorem c6_first_tick_amended :
    (((newBaseStream Nat { defaultConfig with bufferSize := 1 }).emit 1).fst = .ok true) ∧
    ((((newBaseStream Nat { defaultConfig with bufferSize := 1 }).emit 1).snd.emit 2).fst
        = .ok false) ∧
    ((((newBaseStream Nat { defaultConfig with bufferSize := 1 }).emit 1).snd.emit 2).snd
        = ((newBaseStream Nat { defaultConfig with bufferSize := 1 }).emit 1).snd) := by
  decide

/-- C7: evaluated on the failing input — `Start` on a non-idle stream
returns `errors.ErrCancelled`, not an AlreadySubscribed error (no such
sentinel exists in pkg/errors); on an idle stream it succeeds and moves the
state to `Connecting`. -/
theorem c7_start_returns_cancelled :
    (({ newBaseStream Nat defaultConfig with state := .connecting }).start
        = .error .errCancelled) ∧
    ((newBaseStream Nat defaultConfig).start
        = .ok { newBaseStream Nat defaultConfig with state := .connecting }) ∧
    StState.connecting ≠ StState.idle := by
  exact ⟨rfl, rfl, by decide⟩

/-- C8: evaluated on the failing inputs — `Stop` on an Idle stream and on a
Closed stream returns nil (no NotSubscribed error; no such sentinel exists
in pkg/errors) and leaves the stream, its state and its channels,
completely unchanged. -/
theorem c8_stop_returns_nil :
    ((newBaseStream Nat defaultConfig).stop = (none, newBaseStream Nat defaultConfig)) ∧
    (({ newBaseStream Nat defaultConfig with state := .closed }).stop
        = (none, { newBaseStream Nat defaultConfig with state := .closed })) := by
  exact ⟨rfl, rfl⟩

/-- C9: `Register` panics exactly when a factory for the provider name is
already registered, and a successful registration makes `IsRegistered`
report the provider afterwards. -/
theorem c9_register_spec (r : Registry) (p : String) (f : Nat) :
    (register r p f = none ↔ isRegistered r p = true) ∧
    (isRegistered r p = false → isRegistered ((register r p f).getD r) p = true) := by
  constructor
  · unfold register
    by_cases h : isRegistered r p
    · simp [h]
    · simp [h]
  · intro h
    unfold register
    simp only [h, Bool.false_eq_true, if_false, Option.getD_some]
    simp [isRegistered]

/-- Witness for C9: registering "binance" in the empty registry succeeds
and the provider is reported as registered afterwards. -/
theorem c9_register_spec_witness :
    isRegistered ((register [] "binance" 0).getD []) "binance" = true :=
  (c9_register_spec [] "binance" 0).2 (by rfl)

/-- C10: `NewSymbol` is normalizing and idempotent — `NewSymbol s` is the
uppercased, whitespace-trimmed form of `s`; re-normalizing the `String()`
of a produced symbol is a no-op; and the symbol assigned by
`UnmarshalJSON` is such a `NewSymbol` output, hence a fixed point. -/
theorem c10_newSymbol_normalizing (s : GoStr) :
    newSymbol s = goToUpper (goTrimSpace s) ∧
    newSymbol (symbolString (newSymbol s)) = newSymbol s ∧
    symbolOfUnmarshalledJSON s = newSymbol s := by
  refine ⟨rfl, ?_, rfl⟩
  show newSymbol (newSymbol s) = newSymbol s
  unfold newSymbol
  rw [goTrimSpace_goToUpper, goTrimSpace_idem, goToUpper_idem]
